import Mathlib

/-!
Verification of the jeepyb project-reconciliation core.

This file gives a shallow embedding of the reconciliation driver
(`jeepyb/cmd/manage_projects.py`) and the Gerrit helpers
(`jeepyb/gerrit/gerritapi.py`).  External effects (git subprocesses, the
Gerrit SSH/REST service) are modelled as explicit environments of
success/failure outcomes, matching the spec's view of them as atomic
primitives.  All definitions are translated from the source; theorems
settle the frozen claims about the spec.
-/

namespace Jeepyb

/-! ## String primitives

Python's `needle in haystack` substring test and `str.strip()`,
modelled directly over character lists so that everything evaluates. -/

/-- Whether `pat` is a prefix of `cs` (character-by-character). -/
def listStartsWith : List Char → List Char → Bool
  | [], _ => true
  | _ :: _, [] => false
  | a :: as, b :: bs => a == b && listStartsWith as bs

/-- Whether `pat` occurs as a contiguous substring of `cs`. -/
def listContainsSub (pat : List Char) : List Char → Bool
  | [] => listStartsWith pat []
  | c :: rest => listStartsWith pat (c :: rest) || listContainsSub pat rest

/-- Python's `pat in s` substring test. -/
def strContains (s pat : String) : Bool :=
  listContainsSub pat.data s.data

/-- Whitespace for Python's `str.strip()`. -/
def isSpaceChar (c : Char) : Bool :=
  c == ' ' || c == '\t' || c == '\n' || c == '\r'

/-- Python's `s.strip()` as a character list. -/
def pystrip (cs : List Char) : List Char :=
  ((cs.dropWhile isSpaceChar).reverse.dropWhile isSpaceChar).reverse

/-! ## Change Cache

`JeepybSettings.project_cache` maps project names to JSON records.  A
single project's record is an association list from field name to a
JSON-ish value: the code stores booleans, sha strings, and (at one
place) a whole path-to-sha dictionary. -/

/-- A value stored in a project's cache record. -/
inductive CVal where
  | b (v : Bool)
  | s (v : String)
  | dict (v : List (String × String))
  deriving DecidableEq, Repr

/-- One project's cache record (`section.cache` in the source). -/
abbrev Cache := List (String × CVal)

/-- Python `dict.get(k)` (returning `None` when absent). -/
def cacheGet : Cache → String → Option CVal
  | [], _ => none
  | p :: rest, k => if p.1 = k then some p.2 else cacheGet rest k

/-- Python `dict[k] = v`. -/
def cacheSet : Cache → String → CVal → Cache
  | [], k, v => [(k, v)]
  | p :: rest, k, v => if p.1 = k then (k, v) :: rest else p :: cacheSet rest k v

theorem cacheGet_cacheSet_self (c : Cache) (k : String) (v : CVal) :
    cacheGet (cacheSet c k v) k = some v := by
  induction c with
  | nil => simp [cacheSet, cacheGet]
  | cons p rest ih =>
    by_cases h : p.1 = k
    · simp [cacheSet, cacheGet, h]
    · simp [cacheSet, cacheGet, h, ih]

/-- Python truthiness of a cached value (`if self.cache.get(...)`). -/
def cvalTruthy : CVal → Bool
  | .b v => v
  | .s v => !(v == "")
  | .dict v => !v.isEmpty

/-- `JeepybProjectConfig.already_created`:
`self.cache.get('project-created', False)` used as a boolean. -/
def already_created (c : Cache) : Bool :=
  match cacheGet c "project-created" with
  | some v => cvalTruthy v
  | none => false

/-! ## `GerritCheckout.fsck_repo`

`rc, out = git_command_output(path, ['fsck', '--full'])`; raises iff
`rc != 0 or 'zeroPaddedFilemode' in out`. -/

/-- `GerritCheckout.fsck_repo`, as a function of the integrity check's
exit status and captured output.  `Except.error` is the raised
`Exception('git fsck failed not importing')`. -/
def fsck_repo (rc : Int) (out : String) : Except String Unit :=
  if rc != 0 || strContains out "zeroPaddedFilemode" then
    .error "git fsck failed not importing"
  else
    .ok ()

/-- C7: `fsck_repo` fails (raises) exactly when the exit status is
non-zero or the output contains the zero-padded-filemode warning; in
particular the warning is rejected even at exit status 0, and otherwise
it succeeds silently. -/
theorem fsck_repo_failure_characterization (rc : Int) (out : String) :
    (fsck_repo rc out = .error "git fsck failed not importing" ↔
      (rc ≠ 0 ∨ strContains out "zeroPaddedFilemode" = true)) ∧
    (fsck_repo rc out ≠ .error "git fsck failed not importing" ↔ fsck_repo rc out = .ok ()) := by
  constructor
  · unfold fsck_repo
    split
    · rename_i h
      simp only [Bool.or_eq_true, bne_iff_ne, ne_eq] at h
      exact ⟨fun _ => h.imp id id, fun _ => rfl⟩
    · rename_i h
      simp only [Bool.or_eq_true, bne_iff_ne, ne_eq, not_or] at h
      constructor
      · intro hx; exact absurd hx (by simp)
      · intro hx
        rcases hx with hx | hx
        · exact absurd hx h.1
        · exact absurd hx (by simp [h.2])
  · unfold fsck_repo
    split <;> simp

/-! ## Local git working-copy state

Only the branch structure matters for the metadata transaction: a set of
local branch names and the currently checked-out branch (`HEAD`).
Remote-side effects and the work tree are kept out of this state; the
tree's dirtiness and every remote outcome appear as explicit
parameters. -/

structure GitState where
  branches : List String
  head : String
  deriving DecidableEq, Repr

/-- `git checkout <b>`: succeeds (status 0) iff `b` is an existing local
branch, in which case `HEAD` moves to it; otherwise the state is
unchanged. -/
def gitCheckout (s : GitState) (b : String) : Nat × GitState :=
  if b ∈ s.branches then (0, { s with head := b }) else (1, s)

/-- `git checkout -B <b> <ref>`: force-creates branch `b` at `ref` and
moves `HEAD` to it. -/
def gitCheckoutB (s : GitState) (b : String) : GitState :=
  { branches := if b ∈ s.branches then s.branches else b :: s.branches, head := b }

/-- `git branch -D <b>`: fails if `b` is the checked-out branch or does
not exist; otherwise deletes it. -/
def gitBranchDelete (s : GitState) (b : String) : Nat × GitState :=
  if b = s.head then (1, s)
  else if b ∈ s.branches then (0, { s with branches := s.branches.erase b })
  else (1, s)

/-! ## `GerritMetaUpdater.fetch_meta_config`

Two `for x in range(10)` polling loops (fetch `refs/meta/config`, then
look for `project.config` in the fetched tree), each raising
`FetchConfigException` from its `else` clause when every attempt fails,
followed by a final `checkout -B config` whose failure also raises. -/

inductive FetchConfigException where
  | mk
  deriving DecidableEq, Repr

/-- Outcomes of the remote git operations issued by one
`fetch_meta_config` call, indexed by attempt number. -/
structure FetchEnv where
  /-- exit status of attempt `i` of `git fetch <url> +refs/meta/config:...` is 0 -/
  fetchOk : Nat → Bool
  /-- exit status of attempt `i` of `git remote update --prune` is 0 -/
  updateOk : Nat → Bool
  /-- exit status of attempt `i` of `git ls-files --with-tree=... project.config` -/
  lsStatus : Nat → Nat
  /-- captured output of attempt `i` of that `ls-files` call -/
  lsOut : Nat → String
  /-- exit status of the final `git checkout -B config ...` is 0 -/
  checkoutOk : Bool

/-- One iteration of the second polling loop succeeds ("break") iff the
`remote update` succeeded, and then `'project.config' in output.strip()`
with `ls-files` status 0. -/
def configAttemptOk (env : FetchEnv) (i : Nat) : Bool :=
  env.updateOk i &&
    (listContainsSub "project.config".data (pystrip (env.lsOut i).data) &&
      (env.lsStatus i == 0))

/-- `for x in range(fuel)` polling: returns the index of the first
successful attempt starting at `start`, or `none` if all attempts fail
(the loop's `else` clause). -/
def pollLoop (ok : Nat → Bool) (fuel start : Nat) : Option Nat :=
  match fuel with
  | 0 => none
  | fuel' + 1 => if ok start then some start else pollLoop ok fuel' (start + 1)

/-- `GerritMetaUpdater.fetch_meta_config`: poll the fetch up to 10
times, then poll for `project.config` up to 10 times, then force-create
the local `config` branch; any exhausted phase (or a failing final
checkout) raises `FetchConfigException`. -/
def fetch_meta_config (env : FetchEnv) (s : GitState) :
    Except FetchConfigException GitState :=
  match pollLoop env.fetchOk 10 0 with
  | none => .error .mk
  | some _ =>
    match pollLoop (configAttemptOk env) 10 0 with
    | none => .error .mk
    | some _ =>
      if env.checkoutOk then .ok (gitCheckoutB s "config") else .error .mk

/-! ## `GerritMetaUpdater.push_meta_config` and the scoped transaction -/

/-- Outcomes of the release-phase git operations. -/
structure ExitEnv where
  /-- exit status of `git commit -a -m ...` is 0 -/
  commitOk : Bool
  /-- exit status of `git push <url> HEAD:refs/meta/config` is 0 -/
  pushOk : Bool

/-- `GerritMetaUpdater.push_meta_config`: returns Python `None` when
`diff-index --quiet HEAD` reports a clean tree ("No changes to push"),
otherwise `False` on a failed commit or push and `True` on success.
`dirty` is that `diff-index` outcome. -/
def push_meta_config (env : ExitEnv) (dirty : Bool) : Option Bool :=
  if !dirty then none
  else if !env.commitOk then some false
  else if !env.pushOk then some false
  else some true

/-- `GerritMetaUpdater.__enter__`: record the current branch
(`rev-parse --abbrev-ref HEAD`, defaulting to `master` when that yields
nothing), then run `fetch_meta_config`; a raise from acquisition means
the context body never runs. -/
def metaEnter (env : FetchEnv) (s : GitState) : Option (GitState × String) :=
  let recorded := if s.head = "" then "master" else s.head
  match fetch_meta_config env s with
  | .error _ => none
  | .ok s' => some (s', recorded)

/-- `GerritMetaUpdater.__exit__`: unconditionally call
`push_meta_config` (its result is ignored), then `reset --hard`,
`checkout <recorded>`, `branch -D config`; returns `True`, suppressing
any body exception. -/
def metaExit (env : ExitEnv) (s : GitState) (dirty : Bool) (recorded : String) :
    GitState :=
  let _pushResult := push_meta_config env dirty
  let s2 := (gitCheckout s recorded).2
  (gitBranchDelete s2 "config").2

/-- A whole `with gerrit_api.meta_updater(...)` scope.  The body only
touches the work tree (both consumers copy files and `git add`), so it
is abstracted to whether it raised and whether it left the tree dirty;
`__exit__` runs on both body outcomes and suppresses the exception. -/
def metaTransaction (fenv : FetchEnv) (xenv : ExitEnv) (s : GitState)
    (bodyRaised dirty : Bool) : Except FetchConfigException GitState :=
  match metaEnter fenv s with
  | none => .error .mk
  | some (s1, recorded) =>
    let _ := bodyRaised
    .ok (metaExit xenv s1 dirty recorded)

/-! ### Polling-loop lemmas -/

theorem pollLoop_eq_none_iff (ok : Nat → Bool) :
    ∀ fuel start, pollLoop ok fuel start = none ↔ ∀ i, i < fuel → ok (start + i) = false := by
  intro fuel
  induction fuel with
  | zero => intro start; simp [pollLoop]
  | succ f ih =>
    intro start
    by_cases h : ok start = true
    · simp only [pollLoop, h, if_true]
      constructor
      · intro hx; cases hx
      · intro hall
        have h0 := hall 0 (Nat.succ_pos f)
        rw [Nat.add_zero, h] at h0
        cases h0
    · have hb : ok start = false := by
        cases hok : ok start
        · rfl
        · exact absurd hok h
      simp only [pollLoop, hb, Bool.false_eq_true, if_false]
      rw [ih (start + 1)]
      constructor
      · intro hall i hi
        cases i with
        | zero => simpa using hb
        | succ j =>
          have hj := hall j (Nat.lt_of_succ_lt_succ hi)
          rw [show start + 1 + j = start + (j + 1) by omega] at hj
          exact hj
      · intro hall i hi
        have hj := hall (i + 1) (Nat.succ_lt_succ hi)
        rw [show start + (i + 1) = start + 1 + i by omega] at hj
        exact hj

theorem pollLoop_eq_some (ok : Nat → Bool) :
    ∀ fuel start i, pollLoop ok fuel start = some i →
      ok i = true ∧ start ≤ i ∧ i < start + fuel := by
  intro fuel
  induction fuel with
  | zero => intro start i h; cases h
  | succ f ih =>
    intro start i h
    by_cases hok : ok start = true
    · simp only [pollLoop, hok, if_true, Option.some.injEq] at h
      subst h
      exact ⟨hok, Nat.le_refl _, by omega⟩
    · have hb : ok start = false := by
        cases hx : ok start
        · rfl
        · exact absurd hx hok
      simp only [pollLoop, hb, Bool.false_eq_true, if_false] at h
      obtain ⟨h1, h2, h3⟩ := ih (start + 1) i h
      exact ⟨h1, by omega, by omega⟩

/-- C5: `fetch_meta_config` raises `FetchConfigException` if and only if
the 10-attempt fetch phase exhausts all attempts, or (the fetch phase
having succeeded) the 10-attempt `project.config` phase exhausts all
attempts, or (both phases having succeeded) the final `checkout -B
config` fails; whenever an attempt in a phase succeeds the phase exits
without error.  Each phase performs at most 10 attempts, reflected by
the bound `i < 10` in every quantifier.  (Wall-clock 2-second spacing is
outside the embedding.) -/
theorem fetch_meta_config_error_characterization (env : FetchEnv) (s : GitState) :
    fetch_meta_config env s = .error .mk ↔
      ((∀ i, i < 10 → env.fetchOk i = false) ∨
       ((∃ i, i < 10 ∧ env.fetchOk i = true) ∧
         (∀ i, i < 10 → configAttemptOk env i = false)) ∨
       ((∃ i, i < 10 ∧ env.fetchOk i = true) ∧
         (∃ i, i < 10 ∧ configAttemptOk env i = true) ∧
         env.checkoutOk = false)) := by
  unfold fetch_meta_config
  cases h1 : pollLoop env.fetchOk 10 0 with
  | none =>
    have hall := (pollLoop_eq_none_iff env.fetchOk 10 0).mp h1
    simp only [Nat.zero_add] at hall
    exact iff_of_true rfl (Or.inl hall)
  | some a =>
    obtain ⟨ha, _, ha2⟩ := pollLoop_eq_some env.fetchOk 10 0 a h1
    have hex1 : ∃ i, i < 10 ∧ env.fetchOk i = true := ⟨a, by omega, ha⟩
    have hnall1 : ¬ ∀ i, i < 10 → env.fetchOk i = false := by
      intro hall
      have := hall a (by omega)
      rw [ha] at this; cases this
    cases h2 : pollLoop (configAttemptOk env) 10 0 with
    | none =>
      have hall2 := (pollLoop_eq_none_iff (configAttemptOk env) 10 0).mp h2
      simp only [Nat.zero_add] at hall2
      exact iff_of_true rfl (Or.inr (Or.inl ⟨hex1, hall2⟩))
    | some b =>
      obtain ⟨hb, _, hb2⟩ := pollLoop_eq_some (configAttemptOk env) 10 0 b h2
      have hex2 : ∃ i, i < 10 ∧ configAttemptOk env i = true := ⟨b, by omega, hb⟩
      have hnall2 : ¬ ∀ i, i < 10 → configAttemptOk env i = false := by
        intro hall
        have := hall b (by omega)
        rw [hb] at this; cases this
      by_cases hc : env.checkoutOk = true
      · rw [if_pos hc]
        constructor
        · intro hx; cases hx
        · intro hx
          rcases hx with hx | hx | hx
          · exact absurd hx hnall1
          · exact absurd hx.2 hnall2
          · rw [hx.2.2] at hc; cases hc
      · have hcf : env.checkoutOk = false := by
          cases hx : env.checkoutOk
          · rfl
          · exact absurd hx hc
        rw [if_neg hc]
        exact iff_of_true rfl (Or.inr (Or.inr ⟨hex1, hex2, hcf⟩))

/-! ### The metadata transaction invariant (C2) -/

theorem fetch_meta_config_ok_shape (env : FetchEnv) (s s' : GitState)
    (h : fetch_meta_config env s = .ok s') : s' = gitCheckoutB s "config" := by
  unfold fetch_meta_config at h
  cases h1 : pollLoop env.fetchOk 10 0 <;> rw [h1] at h
  · cases h
  · cases h2 : pollLoop (configAttemptOk env) 10 0 <;> rw [h2] at h
    · cases h
    · by_cases hc : env.checkoutOk = true
      · rw [if_pos hc] at h
        cases h
        rfl
      · rw [if_neg hc] at h
        cases h

/-- C2: for a metadata transaction entered on an existing branch that is
not itself named `config` (with distinct local branch names), every exit
path — body succeeded, body raised, release commit/push failed (`xenv`
arbitrary, `bodyRaised`/`dirty` arbitrary) — leaves the working copy on
the branch recorded at acquisition time (`s0.head`) with no local
`config` branch remaining. -/
theorem meta_transaction_restores_branch
    (fenv : FetchEnv) (xenv : ExitEnv) (s0 sF : GitState)
    (bodyRaised dirty : Bool)
    (hmem : s0.head ∈ s0.branches) (hnc : s0.head ≠ "config")
    (hne : s0.head ≠ "") (hnd : s0.branches.Nodup)
    (hrun : metaTransaction fenv xenv s0 bodyRaised dirty = .ok sF) :
    sF.head = s0.head ∧ "config" ∉ sF.branches := by
  unfold metaTransaction metaEnter at hrun
  cases hfe : fetch_meta_config fenv s0 with
  | error e => rw [hfe] at hrun; cases hrun
  | ok s1 =>
    rw [hfe] at hrun
    simp only [Except.ok.injEq] at hrun
    have hs1 : s1 = gitCheckoutB s0 "config" := fetch_meta_config_ok_shape fenv s0 s1 hfe
    rw [if_neg hne] at hrun
    subst hs1
    rw [← hrun]
    unfold metaExit
    by_cases cb : "config" ∈ s0.branches
    · have hs1b : gitCheckoutB s0 "config" = ⟨s0.branches, "config"⟩ := by
        unfold gitCheckoutB
        rw [if_pos cb]
      rw [hs1b]
      have hck : gitCheckout ⟨s0.branches, "config"⟩ s0.head =
          (0, ⟨s0.branches, s0.head⟩) := by
        unfold gitCheckout
        rw [if_pos hmem]
      rw [hck]
      dsimp only
      have hdel : gitBranchDelete ⟨s0.branches, s0.head⟩ "config" =
          (0, ⟨s0.branches.erase "config", s0.head⟩) := by
        unfold gitBranchDelete
        rw [if_neg (Ne.symm hnc), if_pos cb]
      rw [hdel]
      refine ⟨rfl, ?_⟩
      intro hmem2
      exact absurd (hnd.mem_erase_iff.mp hmem2).1 (by simp)
    · have hs1b : gitCheckoutB s0 "config" = ⟨"config" :: s0.branches, "config"⟩ := by
        unfold gitCheckoutB
        rw [if_neg cb]
      rw [hs1b]
      have hck : gitCheckout ⟨"config" :: s0.branches, "config"⟩ s0.head =
          (0, ⟨"config" :: s0.branches, s0.head⟩) := by
        unfold gitCheckout
        rw [if_pos (List.mem_cons_of_mem _ hmem)]
      rw [hck]
      dsimp only
      have hdel : gitBranchDelete ⟨"config" :: s0.branches, s0.head⟩ "config" =
          (0, ⟨("config" :: s0.branches).erase "config", s0.head⟩) := by
        unfold gitBranchDelete
        rw [if_neg (Ne.symm hnc), if_pos (List.mem_cons_self _ _)]
      rw [hdel]
      refine ⟨rfl, ?_⟩
      rw [List.erase_cons_head]
      exact cb

/-- Witness for C2 at a concrete transaction whose release-phase commit
and push both fail and whose body raised. -/
theorem meta_transaction_restores_branch_witness :
    (GitState.mk ["master"] "master").head = "master" ∧
      "config" ∉ (GitState.mk ["master"] "master").branches :=
  meta_transaction_restores_branch
    ⟨fun _ => true, fun _ => true, fun _ => 0, fun _ => "project.config", true⟩
    ⟨false, false⟩ ⟨["master"], "master"⟩ ⟨["master"], "master"⟩ true true
    (by decide) (by decide) (by decide) (by decide) (by rfl)

/-! ## `GerritCheckout.make_local_copy`

`jeepyb.utils.run_command` launches a subprocess and returns its
captured output; a non-zero exit status is only logged, never raised.
The only way a `run_command` call raises is a process-launch failure
(e.g. `OSError` from `Popen`).  The `try/except` around the
clone-from-Gerrit block therefore catches launch failures only. -/

/-- Outcome of one `run_command` invocation. -/
inductive RunResult where
  /-- the subprocess ran and exited with this status (never raises) -/
  | launched (exitCode : Nat)
  /-- launching the subprocess itself raised (e.g. `OSError`) -/
  | launchError
  deriving DecidableEq, Repr

/-- Inputs of one `make_local_copy` call: the Gerrit project listing,
the declared upstream URL, the outcomes of the two possible clones, and
the settings used for the `.gitreview` descriptor. -/
structure CloneEnv where
  gerritProjects : List String
  upstream : Option String
  /-- outcome of `git clone <gerrit remote url> <path>` -/
  gerritClone : RunResult
  /-- outcome of `git clone <upstream> <path>` -/
  upstreamClone : RunResult
  host : String
  port : Nat
  project : String
  deriving Repr

/-- Which of the three acquisition strategies ran to completion. -/
inductive Strategy where
  | gerritBacked
  | upstreamImport
  | freshInit
  deriving DecidableEq, Repr

structure LocalCopyResult where
  strategy : Strategy
  /-- the returned push specification (`None` for the Gerrit-backed path) -/
  pushSpec : Option String
  /-- content of the committed `.gitreview` descriptor (fresh-init only) -/
  gitreview : Option String
  /-- whether an `upstream` remote was added to the working copy -/
  upstreamRemoteAdded : Bool
  deriving DecidableEq, Repr

/-- The `GITREVIEW_TEMPLATE % (host, port, project_git)` instantiation. -/
def GITREVIEW_TEMPLATE (host : String) (port : Nat) (projectGit : String) : String :=
  "[gerrit]\nhost=" ++ host ++ "\nport=" ++ toString port ++
    "\nproject=" ++ projectGit ++ "\n"

/-- `GerritCheckout.make_local_copy`.  `Except.error` is an exception
propagating to the caller (only a launch failure of the upstream clone
can do that). -/
def make_local_copy (env : CloneEnv) : Except Unit LocalCopyResult :=
  if env.project ∈ env.gerritProjects ∧ env.gerritClone ≠ .launchError then
    .ok { strategy := .gerritBacked, pushSpec := none, gitreview := none,
          upstreamRemoteAdded := env.upstream.isSome }
  else if env.upstream.isSome then
    match env.upstreamClone with
    | .launchError => .error ()
    | .launched _ =>
      .ok { strategy := .upstreamImport,
            pushSpec := some "push %s +refs/copy/heads/*:refs/heads/*",
            gitreview := none, upstreamRemoteAdded := true }
  else
    .ok { strategy := .freshInit,
          pushSpec := some "push %s HEAD:refs/heads/master",
          gitreview := some (GITREVIEW_TEMPLATE env.host env.port
            (env.project ++ ".git")),
          upstreamRemoteAdded := false }

/-- C8 (code bug): a project that Gerrit lists but whose clone exits
with a non-zero status (128) does NOT fall through to the
upstream-import strategy: `run_command` swallows the exit status, so the
review-server-backed path completes and returns no push spec.  Only a
clone whose launch raises falls through (second conjunct).  The claim
(and the code's own comment) expect the fall-through on a failed
clone. -/
theorem clone_exit_failure_not_falling_through :
    make_local_copy ⟨["org/p"], some "https://upstream.example/p.git",
        .launched 128, .launched 0, "review.example.com", 29418, "org/p"⟩ =
      .ok { strategy := .gerritBacked, pushSpec := none, gitreview := none,
            upstreamRemoteAdded := true } ∧
    make_local_copy ⟨["org/p"], some "https://upstream.example/p.git",
        .launchError, .launched 0, "review.example.com", 29418, "org/p"⟩ =
      .ok { strategy := .upstreamImport,
            pushSpec := some "push %s +refs/copy/heads/*:refs/heads/*",
            gitreview := none, upstreamRemoteAdded := true } := by
  constructor <;> rfl

/-- C9: a fresh project (not listed by Gerrit, no upstream configured)
selects the fresh-init strategy, commits a `.gitreview` descriptor
carrying the host, the port and the `.git`-suffixed project path, and
returns exactly `"push %s HEAD:refs/heads/master"`. -/
theorem fresh_init_strategy_result (env : CloneEnv)
    (hng : env.project ∉ env.gerritProjects) (hnu : env.upstream = none) :
    make_local_copy env =
      .ok { strategy := .freshInit,
            pushSpec := some "push %s HEAD:refs/heads/master",
            gitreview := some ("[gerrit]\nhost=" ++ env.host ++ "\nport=" ++
              toString env.port ++ "\nproject=" ++ (env.project ++ ".git") ++ "\n"),
            upstreamRemoteAdded := false } := by
  unfold make_local_copy
  rw [if_neg (by intro hx; exact hng hx.1)]
  rw [if_neg (by rw [hnu]; simp)]
  rfl

/-- Witness for C9 at a concrete fresh project. -/
theorem fresh_init_strategy_result_witness :
    make_local_copy ⟨["other"], none, .launched 0, .launched 0,
        "review.example.com", 29418, "org/new"⟩ =
      .ok { strategy := .freshInit,
            pushSpec := some "push %s HEAD:refs/heads/master",
            gitreview := some ("[gerrit]\nhost=" ++ "review.example.com" ++
              "\nport=" ++ toString (29418 : Nat) ++ "\nproject=" ++
              ("org/new" ++ ".git") ++ "\n"),
            upstreamRemoteAdded := false } :=
  fresh_init_strategy_result
    ⟨["other"], none, .launched 0, .launched 0, "review.example.com", 29418, "org/new"⟩
    (by decide) rfl

/-! ## `create_gerrit_project` and the Driver's creation step -/

/-- The Gerrit service view used by the creation step: the project
listing and whether the `createProject` RPC succeeds (raises
otherwise). -/
structure GerritSrv where
  projects : List String
  createOk : Bool
  deriving DecidableEq, Repr

/-- Result of `create_gerrit_project`: whether it raised, its Python
return value (when it did not raise), the updated cache record, whether
the `createProject` RPC was issued, and the resulting Gerrit project
list. -/
structure CreateResult where
  raised : Bool
  returned : Option Bool
  cache : Cache
  createCalled : Bool
  projects : List String
  deriving DecidableEq, Repr

/-- `manage_projects.create_gerrit_project`: if the name is already
listed, set `project-created` and return `False` without any creation
call; otherwise issue the creation, set `project-created` and return
`True`, or on failure set `project-created = False` and re-raise. -/
def create_gerrit_project (srv : GerritSrv) (name : String) (cache : Cache) :
    CreateResult :=
  if name ∈ srv.projects then
    { raised := false, returned := some false,
      cache := cacheSet cache "project-created" (.b true),
      createCalled := false, projects := srv.projects }
  else if srv.createOk then
    { raised := false, returned := some true,
      cache := cacheSet cache "project-created" (.b true),
      createCalled := true, projects := name :: srv.projects }
  else
    { raised := true, returned := none,
      cache := cacheSet cache "project-created" (.b false),
      createCalled := true, projects := srv.projects }

/-- Result of the Driver's creation step for one project. -/
structure Step2Result where
  /-- the `continue` was taken: the project is abandoned for this run -/
  aborted : Bool
  cache : Cache
  projects : List String
  deriving DecidableEq, Repr

/-- `manage_projects.main`, step 2 (`if not section.already_created`):
attempt creation, set `project-created = True` on success, or set it to
`False` and `continue` on any exception. -/
def driverStep2 (srv : GerritSrv) (name : String) (cache : Cache) : Step2Result :=
  if already_created cache then
    { aborted := false, cache := cache, projects := srv.projects }
  else
    let r := create_gerrit_project srv name cache
    if r.raised then
      { aborted := true, cache := cacheSet r.cache "project-created" (.b false),
        projects := r.projects }
    else
      { aborted := false, cache := cacheSet r.cache "project-created" (.b true),
        projects := r.projects }

/-- C3 counterexample: for a project not previously created whose
creation RPC fails, the run leaves the project absent from Gerrit but
writes `project-created = false` into its (previously empty) cache
record — the cache is NOT left untouched, refuting the claim's second
disjunct (and the first fails too). -/
theorem driver_create_failure_touches_cache :
    (driverStep2 ⟨[], false⟩ "org/p" []).cache =
        [("project-created", CVal.b false)] ∧
    ¬(("org/p" ∈ (driverStep2 ⟨[], false⟩ "org/p" []).projects ∧
        cacheGet (driverStep2 ⟨[], false⟩ "org/p" []).cache "project-created" =
          some (CVal.b true)) ∨
      ("org/p" ∉ (driverStep2 ⟨[], false⟩ "org/p" []).projects ∧
        (driverStep2 ⟨[], false⟩ "org/p" []).cache = ([] : Cache))) := by
  constructor
  · rfl
  · intro hx
    rcases hx with ⟨hmem, _⟩ | ⟨_, hcache⟩
    · exact absurd hmem (by decide)
    · exact absurd hcache (by decide)

/-- C3 amended: for a project not previously created, one run of the
creation step leaves either the project listed in Gerrit with
`project-created = true`, or the project absent with the listing
unchanged and the cache recording `project-created = false` — which
keeps `already_created` false for the next run, but does write to the
cache record. -/
theorem driver_create_step_dichotomy (srv : GerritSrv) (name : String)
    (cache : Cache) (h : already_created cache = false) :
    (name ∈ (driverStep2 srv name cache).projects ∧
      cacheGet (driverStep2 srv name cache).cache "project-created" =
        some (CVal.b true)) ∨
    (name ∉ (driverStep2 srv name cache).projects ∧
      (driverStep2 srv name cache).projects = srv.projects ∧
      cacheGet (driverStep2 srv name cache).cache "project-created" =
        some (CVal.b false) ∧
      already_created (driverStep2 srv name cache).cache = false) := by
  unfold driverStep2
  rw [h]
  simp only [Bool.false_eq_true, if_false]
  unfold create_gerrit_project
  by_cases hmem : name ∈ srv.projects
  · rw [if_pos hmem]
    dsimp only
    simp only [Bool.false_eq_true, if_false]
    left
    exact ⟨hmem, cacheGet_cacheSet_self _ _ _⟩
  · rw [if_neg hmem]
    by_cases hc : srv.createOk = true
    · rw [if_pos hc]
      dsimp only
      simp only [Bool.false_eq_true, if_false]
      left
      exact ⟨List.mem_cons_self _ _, cacheGet_cacheSet_self _ _ _⟩
    · rw [if_neg hc]
      dsimp only
      rw [if_pos rfl]
      right
      refine ⟨hmem, rfl, cacheGet_cacheSet_self _ _ _, ?_⟩
      unfold already_created
      rw [cacheGet_cacheSet_self]
      rfl

/-- Witness for the amended C3 at a concrete failing creation. -/
theorem driver_create_step_dichotomy_witness :
    ("org/p" ∈ (driverStep2 ⟨[], false⟩ "org/p" []).projects ∧
      cacheGet (driverStep2 ⟨[], false⟩ "org/p" []).cache "project-created" =
        some (CVal.b true)) ∨
    ("org/p" ∉ (driverStep2 ⟨[], false⟩ "org/p" []).projects ∧
      (driverStep2 ⟨[], false⟩ "org/p" []).projects = ([] : List String) ∧
      cacheGet (driverStep2 ⟨[], false⟩ "org/p" []).cache "project-created" =
        some (CVal.b false) ∧
      already_created (driverStep2 ⟨[], false⟩ "org/p" []).cache = false) :=
  driver_create_step_dichotomy ⟨[], false⟩ "org/p" [] (by decide)

/-- C10: a project whose name is already listed by Gerrit gets no
creation RPC, has `project-created` set to `true` in the cache, and
`create_gerrit_project` returns `False`; a project actually created now
returns `True` instead. -/
theorem existing_project_selfheal (srv : GerritSrv) (name : String) (cache : Cache) :
    (name ∈ srv.projects →
      (create_gerrit_project srv name cache).createCalled = false ∧
      (create_gerrit_project srv name cache).returned = some false ∧
      cacheGet (create_gerrit_project srv name cache).cache "project-created" =
        some (CVal.b true) ∧
      (create_gerrit_project srv name cache).projects = srv.projects) ∧
    (name ∉ srv.projects → srv.createOk = true →
      (create_gerrit_project srv name cache).returned = some true) := by
  constructor
  · intro hmem
    unfold create_gerrit_project
    rw [if_pos hmem]
    exact ⟨rfl, rfl, cacheGet_cacheSet_self _ _ _, rfl⟩
  · intro hmem hc
    unfold create_gerrit_project
    rw [if_neg hmem, if_pos hc]

/-- Witness for C10: an already-listed project self-heals the cache flag
without a creation call. -/
theorem existing_project_selfheal_witness :
    (create_gerrit_project ⟨["org/p"], true⟩ "org/p" []).createCalled = false ∧
    (create_gerrit_project ⟨["org/p"], true⟩ "org/p" []).returned = some false ∧
    cacheGet (create_gerrit_project ⟨["org/p"], true⟩ "org/p" []).cache
      "project-created" = some (CVal.b true) ∧
    (create_gerrit_project ⟨["org/p"], true⟩ "org/p" []).projects = ["org/p"] :=
  (existing_project_selfheal ⟨["org/p"], true⟩ "org/p" []).1 (by decide)

/-! ## `process_acls` and the Driver's cached-hash update (C1)

Exception flow, from the source: `GerritMetaUpdater.__exit__` returns
`True`, so any exception raised by the context body (e.g.
`CreateGroupException` from `create_groups_file`) is suppressed;
`push_meta_config` returns `False` on a failed commit or push and never
raises; only `FetchConfigException`, raised by `fetch_meta_config`
inside `__enter__`, propagates out of `process_acls` to the Driver,
where the per-project scope swallows it and skips the rest of that
project — including the `section.cache['acl-sha'] = sha` line. -/

structure AclEnv where
  /-- `os.path.isfile(acl_path)` -/
  aclFileExists : Bool
  /-- acquisition (`fetch_meta_config` in `__enter__`) succeeded -/
  fetchOk : Bool
  /-- copying the ACL file left the tree dirty (`diff-index` non-zero) -/
  dirty : Bool
  /-- `create_groups_file` succeeded (else `CreateGroupException`) -/
  groupsOk : Bool
  /-- the release-phase `git commit` exited 0 -/
  commitOk : Bool
  /-- the release-phase `git push HEAD:refs/meta/config` exited 0 -/
  pushOk : Bool
  deriving DecidableEq, Repr

/-- Whether `process_acls` propagates an exception to the Driver: only
a `FetchConfigException` from acquisition escapes. -/
def process_acls_raises (env : AclEnv) : Bool :=
  env.aclFileExists && !env.fetchOk

/-- Whether the metadata push of this `process_acls` call was confirmed
successful (`push_meta_config` returned `True`). -/
def process_acls_pushConfirmed (env : AclEnv) : Bool :=
  env.aclFileExists && env.fetchOk && env.dirty && env.commitOk && env.pushOk

/-- `manage_projects.main`, one item of the ACL hash loop:
`if section.cache.get('acl-sha') != sha: process_acls(...);
section.cache['acl-sha'] = sha` — a propagated exception skips the
assignment. -/
def aclStep (env : AclEnv) (cache : Cache) (sha : String) : Cache :=
  if cacheGet cache "acl-sha" ≠ some (.s sha) then
    if process_acls_raises env then cache
    else cacheSet cache "acl-sha" (.s sha)
  else cache

/-- C1 counterexample: the release-phase commit fails
(`push_meta_config` returns `False`, push never confirmed), yet the
Driver still writes the new `acl-sha` into the previously empty cache
record — the cached hash is not left unchanged. -/
theorem acl_sha_updated_despite_commit_failure :
    process_acls_pushConfirmed ⟨true, true, true, true, false, true⟩ = false ∧
    cacheGet (aclStep ⟨true, true, true, true, false, true⟩ [] "a1") "acl-sha" =
      some (CVal.s "a1") ∧
    cacheGet ([] : Cache) "acl-sha" = none := by
  refine ⟨rfl, ?_, rfl⟩
  rfl

/-- C1 amended: the cached hash is updated whenever the transactor flow
completes without a propagated exception — i.e. whenever metadata-ref
acquisition succeeds — regardless of whether the release-phase commit or
push succeeded; it is left unchanged only when acquisition raises
`FetchConfigException`. -/
theorem acl_sha_update_independent_of_push (env : AclEnv) (cache : Cache)
    (sha : String) :
    (process_acls_raises env = true → aclStep env cache sha = cache) ∧
    (process_acls_raises env = false →
      cacheGet (aclStep env cache sha) "acl-sha" = some (.s sha)) := by
  constructor
  · intro hr
    unfold aclStep
    by_cases hg : cacheGet cache "acl-sha" = some (.s sha)
    · rw [if_neg (fun h => h hg)]
    · rw [if_pos hg, if_pos hr]
  · intro hr
    unfold aclStep
    by_cases hg : cacheGet cache "acl-sha" = some (.s sha)
    · rw [if_neg (fun h => h hg)]
      exact hg
    · rw [if_pos hg, if_neg (by rw [hr]; exact Bool.false_ne_true)]
      exact cacheGet_cacheSet_self _ _ _

/-- Witness for the amended C1: commit and push both fail, the hash is
still written. -/
theorem acl_sha_update_independent_of_push_witness :
    cacheGet (aclStep ⟨true, true, true, true, false, false⟩ [] "a1") "acl-sha" =
      some (CVal.s "a1") :=
  (acl_sha_update_independent_of_push ⟨true, true, true, true, false, false⟩
    [] "a1").2 (by decide)

/-! ## The Driver's three hash sections and second-run idempotence (C4)

Source, `manage_projects.main`: the ACL and prolog loops store the sha
string (`section.cache['acl-sha'] = sha`,
`section.cache['prolog-sha'] = sha`), but the groups loop stores the
whole filtered path-to-sha dictionary:
`section.cache['groups-sha'] = group_sha`.  Each flow is modelled as
succeeding (the claim's premise is an unchanged, working
configuration); the `Nat` component counts invocations of
`process_acls` / `create_groups` / `process_prolog_rules`. -/

def aclSection (cache : Cache) (items : List (String × String)) : Cache × Nat :=
  items.foldl (fun acc item =>
    if cacheGet acc.1 "acl-sha" ≠ some (.s item.2) then
      (cacheSet acc.1 "acl-sha" (.s item.2), acc.2 + 1)
    else acc) (cache, 0)

def groupsSection (cache : Cache) (items : List (String × String)) : Cache × Nat :=
  items.foldl (fun acc item =>
    if cacheGet acc.1 "groups-sha" = some (.s item.2) then acc
    else (cacheSet acc.1 "groups-sha" (.dict items), acc.2 + 1)) (cache, 0)

def prologSection (cache : Cache) (items : List (String × String)) : Cache × Nat :=
  items.foldl (fun acc item =>
    if cacheGet acc.1 "prolog-sha" = some (.s item.2) then acc
    else (cacheSet acc.1 "prolog-sha" (.s item.2), acc.2 + 1)) (cache, 0)

/-- One Driver pass over the ACL, groups and prolog sections for one
project, returning the updated cache and the number of metadata flows
performed. -/
def hashSections (cache : Cache) (acl groups prolog : List (String × String)) :
    Cache × Nat :=
  let a := aclSection cache acl
  let g := groupsSection a.1 groups
  let p := prologSection g.1 prolog
  (p.1, a.2 + g.2 + p.2)

/-- C4 (code bug): running the hash sections twice with identical inputs
performs one additional push on the second run, not zero: the groups
loop cached the whole path-to-sha dictionary instead of the sha string,
so the second run's `groups-sha == sha` comparison cannot match and
`create_groups` runs again.  The ACL and prolog comparisons do match. -/
theorem second_run_repeats_groups_push :
    (hashSections
        (hashSections [] [("acls/org/p.config", "a1")] [("groups/org/p.yaml", "g1")]
          [("prolog/org/p.pl", "r1")]).1
        [("acls/org/p.config", "a1")] [("groups/org/p.yaml", "g1")]
        [("prolog/org/p.pl", "r1")]).2 = 1 ∧
    cacheGet
        (hashSections [] [("acls/org/p.config", "a1")] [("groups/org/p.yaml", "g1")]
          [("prolog/org/p.pl", "r1")]).1 "groups-sha" =
      some (CVal.dict [("groups/org/p.yaml", "g1")]) ∧
    cacheGet
        (hashSections [] [("acls/org/p.config", "a1")] [("groups/org/p.yaml", "g1")]
          [("prolog/org/p.pl", "r1")]).1 "groups-sha" ≠ some (CVal.s "g1") := by
  refine ⟨rfl, rfl, ?_⟩
  decide

/-! ## `GerritAPI.group_uuid` (C6)

`groups_dict` contacts the service anew on every call; the environment
is the sequence of listings those successive calls observe, as
name-to-uuid maps. -/

structure GroupEnv where
  /-- the group listing observed by the `t`-th `groups_dict` call -/
  listings : Nat → List (String × String)

/-- Name lookup in one listing (`group in all_groups` /
`all_groups[group]['uuid']`). -/
def lookupGroup (listing : List (String × String)) (g : String) : Option String :=
  match listing.find? (fun p => p.1 == g) with
  | some p => some p.2
  | none => none

/-- `GerritAPI._get_group_uuid(group, retries)`: up to `retries` calls
to `groups_dict`, returning the uuid as soon as the group appears.  The
second component is the next `groups_dict` call index. -/
def getGroupUuidLoop (env : GroupEnv) (g : String) :
    Nat → Nat → Option String × Nat
  | 0, t => (none, t)
  | r + 1, t =>
    match lookupGroup (env.listings t) g with
    | some u => (some u, t + 1)
    | none => getGroupUuidLoop env g r (t + 1)

/-- The fixed table of well-known Gerrit system groups. -/
def GERRIT_SYSTEM_GROUPS : List (String × String) :=
  [("Anonymous Users", "global:Anonymous-Users"),
   ("Project Owners", "global:Project-Owners"),
   ("Registered Users", "global:Registered-Users"),
   ("Change Owner", "global:Change-Owner")]

/-- Python truthiness of `_get_group_uuid`'s result (`if uuid:`). -/
def optTruthy : Option String → Bool
  | some u => !(u == "")
  | none => false

/-- `GerritAPI.group_uuid`: one lookup attempt; then the system-group
table; then `create_group` (which itself consults `groups_dict` once and
issues `createGroup` only if the name is still absent) followed by a
10-attempt lookup.  Returns the resolved identifier (or `none`) and
whether the `createGroup` RPC was issued. -/
def group_uuid (env : GroupEnv) (g : String) : Option String × Bool :=
  let first := getGroupUuidLoop env g 1 0
  if optTruthy first.1 then (first.1, false)
  else
    match lookupGroup GERRIT_SYSTEM_GROUPS g with
    | some u => (some u, false)
    | none =>
      let created := (lookupGroup (env.listings first.2) g).isNone
      let retry := getGroupUuidLoop env g 10 (first.2 + 1)
      if optTruthy retry.1 then (retry.1, created) else (none, created)

theorem lookupGroup_mem (l : List (String × String)) (g u : String)
    (h : lookupGroup l g = some u) : ∃ p, p ∈ l ∧ p.2 = u := by
  unfold lookupGroup at h
  cases hf : l.find? (fun p => p.1 == g) with
  | none => rw [hf] at h; cases h
  | some p =>
    rw [hf] at h
    cases h
    exact ⟨p, List.mem_of_find?_eq_some hf, rfl⟩

theorem getGroupUuidLoop_none_iff (env : GroupEnv) (g : String) :
    ∀ fuel t, (getGroupUuidLoop env g fuel t).1 = none ↔
      ∀ i, i < fuel → lookupGroup (env.listings (t + i)) g = none := by
  intro fuel
  induction fuel with
  | zero => intro t; simp [getGroupUuidLoop]
  | succ r ih =>
    intro t
    cases hl : lookupGroup (env.listings t) g with
    | some u =>
      simp only [getGroupUuidLoop, hl]
      constructor
      · intro hx; cases hx
      · intro hall
        have h0 := hall 0 (Nat.succ_pos r)
        rw [Nat.add_zero, hl] at h0
        cases h0
    | none =>
      simp only [getGroupUuidLoop, hl]
      rw [ih (t + 1)]
      constructor
      · intro hall i hi
        cases i with
        | zero => simpa using hl
        | succ j =>
          have hj := hall j (Nat.lt_of_succ_lt_succ hi)
          rw [show t + 1 + j = t + (j + 1) by omega] at hj
          exact hj
      · intro hall i hi
        have hj := hall (i + 1) (Nat.succ_lt_succ hi)
        rw [show t + (i + 1) = t + 1 + i by omega] at hj
        exact hj

theorem getGroupUuidLoop_some_mem (env : GroupEnv) (g : String) :
    ∀ fuel t u, (getGroupUuidLoop env g fuel t).1 = some u →
      ∃ s, lookupGroup (env.listings s) g = some u := by
  intro fuel
  induction fuel with
  | zero => intro t u h; simp [getGroupUuidLoop] at h
  | succ r ih =>
    intro t u h
    cases hl : lookupGroup (env.listings t) g with
    | some v =>
      simp only [getGroupUuidLoop, hl] at h
      rw [← h]
      exact ⟨t, hl⟩
    | none =>
      simp only [getGroupUuidLoop, hl] at h
      exact ih (t + 1) u h

/-- C6: `group_uuid` resolves in this priority order: one single-attempt
lookup in the live listing; if absent, the fixed system-group table; if
still absent, remote creation (issued iff the pre-creation check still
misses) followed by up to 10 lookup attempts; it returns the identifier
of the first step that succeeds, and yields no identifier exactly when
every lookup attempt of the final phase also fails.  Hypothesis: the
service never lists a group with an empty uuid.  (1-second sleep spacing
is outside the embedding.) -/
theorem group_uuid_resolution_order (env : GroupEnv) (g : String)
    (hwf : ∀ t p, p ∈ env.listings t → p.2 ≠ "") :
    (∀ u, lookupGroup (env.listings 0) g = some u →
      group_uuid env g = (some u, false)) ∧
    (lookupGroup (env.listings 0) g = none →
      ∀ u, lookupGroup GERRIT_SYSTEM_GROUPS g = some u →
        group_uuid env g = (some u, false)) ∧
    (lookupGroup (env.listings 0) g = none →
      lookupGroup GERRIT_SYSTEM_GROUPS g = none →
      ((group_uuid env g).2 = (lookupGroup (env.listings 1) g).isNone ∧
       ((group_uuid env g).1 = none ↔
         ∀ i, i < 10 → lookupGroup (env.listings (2 + i)) g = none))) := by
  have truthyOf : ∀ u : String, u ≠ "" → optTruthy (some u) = true := by
    intro u hu
    simp only [optTruthy, Bool.not_eq_eq_eq_not, Bool.not_true, beq_eq_false_iff_ne]
    exact hu
  refine ⟨?_, ?_, ?_⟩
  · intro u hu
    have hne : u ≠ "" := by
      obtain ⟨p, hp, hpu⟩ := lookupGroup_mem _ _ _ hu
      rw [← hpu]
      exact hwf _ _ hp
    have h1 : getGroupUuidLoop env g 1 0 = (some u, 1) := by
      simp [getGroupUuidLoop, hu]
    unfold group_uuid
    rw [h1]
    dsimp only
    rw [if_pos (truthyOf u hne)]
  · intro h0 u hu
    have h1 : getGroupUuidLoop env g 1 0 = (none, 1) := by
      simp [getGroupUuidLoop, h0]
    unfold group_uuid
    rw [h1]
    dsimp only
    rw [if_neg (by decide), hu]
  · intro h0 htab
    have h1 : getGroupUuidLoop env g 1 0 = (none, 1) := by
      simp [getGroupUuidLoop, h0]
    have hshape : group_uuid env g =
        (if optTruthy (getGroupUuidLoop env g 10 2).1
          then ((getGroupUuidLoop env g 10 2).1,
                (lookupGroup (env.listings 1) g).isNone)
          else (none, (lookupGroup (env.listings 1) g).isNone)) := by
      unfold group_uuid
      rw [h1]
      dsimp only
      rw [if_neg (by decide), htab]
    rw [hshape]
    constructor
    · by_cases hr : optTruthy (getGroupUuidLoop env g 10 2).1 = true
      · rw [if_pos hr]
      · rw [if_neg hr]
    · constructor
      · intro hnone
        have hr1 : (getGroupUuidLoop env g 10 2).1 = none := by
          cases hx : (getGroupUuidLoop env g 10 2).1 with
          | none => rfl
          | some u =>
            have hne : u ≠ "" := by
              obtain ⟨s, hs⟩ := getGroupUuidLoop_some_mem env g 10 2 u hx
              obtain ⟨p, hp, hpu⟩ := lookupGroup_mem _ _ _ hs
              rw [← hpu]
              exact hwf _ _ hp
            rw [hx, if_pos (truthyOf u hne)] at hnone
            cases hnone
        have := (getGroupUuidLoop_none_iff env g 10 2).mp hr1
        exact this
      · intro hall
        have hr1 : (getGroupUuidLoop env g 10 2).1 = none :=
          (getGroupUuidLoop_none_iff env g 10 2).mpr hall
        rw [hr1, if_neg (by decide)]

/-- Witness for C6: a group absent from the first two listings and from
the system table is created and then found by the retry phase. -/
theorem group_uuid_resolution_order_witness :
    (group_uuid ⟨fun t => if t ≤ 1 then [] else [("devs", "u123")]⟩ "devs").2 = true ∧
    (group_uuid ⟨fun t => if t ≤ 1 then [] else [("devs", "u123")]⟩ "devs").1 ≠ none := by
  have h := group_uuid_resolution_order
    ⟨fun t => if t ≤ 1 then [] else [("devs", "u123")]⟩ "devs"
    (by
      intro t p hp
      by_cases ht : t ≤ 1
      · simp [ht] at hp
      · simp [ht] at hp
        rw [hp]
        decide)
  have h3 := h.2.2 (by decide) (by decide)
  constructor
  · rw [h3.1]
    decide
  · intro hnone
    have hmiss := (h3.2.mp hnone) 0 (by omega)
    exact absurd hmiss (by decide)

end Jeepyb
